import Mathlib

/-!
# Verification of the NaruTalk routing core

Shallow embedding of the orchestration core of the repository
(`backend/app/services/agent_router_manager.py`,
`backend/app/services/router_manager.py`,
`backend/app/services/routers/base_router.py`,
`backend/app/agents/base_agent.py`) and proofs about it.

Conventions of the embedding:
* Python floats are modelled as `ℚ` (the scores involved are exact decimal
  literals combined by `+`, `*`, `/`, so rational arithmetic is faithful for
  every comparison the code performs on them).
* A probe (`can_handle`) that raises is modelled as `Option ℚ = none`; a
  returned confidence `c` is `some c`.
* Python dictionaries built by inserting in a fixed order are modelled as
  lists in that insertion order (Python `dict` preserves insertion order,
  and `max` over keys scans in that order).
* `process` of an agent is modelled as a function of the current
  `agent_switches` counter (the only part of the mutable context the
  routing loop changes between calls); `none` models a raised exception.
-/

namespace NaruTalk

/-- `settings.router_confidence_threshold = 0.5`
(backend/app/core/config.py:51).  Rational constants are written with
`mkRat` so that they evaluate inside the kernel. -/
def routerConfidenceThreshold : ℚ := mkRat 1 2

/-- `settings.max_router_switches` (backend/app/core/config.py:52). -/
def maxRouterSwitches : Nat := 5

/-- `AgentRouterManager.max_agent_switches` (agent_router_manager.py:31). -/
def maxAgentSwitches : Nat := 3

/-- `AgentAction` (base_agent.py:16-21). -/
inductive AgentAction where
  | complete
  | switch
  | continue'
  | error
deriving DecidableEq, Repr

/-- The fields of `AgentResult` (base_agent.py:36-44) used by the routing
loop: `response`, `action`, `next_agent`.  (`confidence`, `sources`,
`metadata` play no role in `process_with_agent` and are modelled separately
for the `__post_init__` claims.) -/
structure AgentResult where
  response : String
  action : AgentAction
  nextAgent : Option String
deriving DecidableEq, Repr

/-- Python truthiness of an optional string field (`None` and `""` are
falsy). -/
def truthy : Option String → Bool
  | none => false
  | some t => !(t == "")

/-- One registered agent of `AgentRouterManager.agents`: its name (the dict
key), its `priority` property, the outcome of `can_handle` on the current
context (`none` = raises), and its `process` as a function of the
`agent_switches` counter (`none` = raises). -/
structure AgentEntry where
  name : String
  priority : Int
  probe : Option ℚ
  proc : Nat → Option AgentResult

/-- One score entry of the `agent_scores` dict built by
`AgentRouterManager.select_best_agent` (agent_router_manager.py:127-137). -/
structure ScoreEntry where
  name : String
  confidence : ℚ
  priority : Int
  finalScore : ℚ
deriving DecidableEq, Repr

/-- Rational multiplication, written through `mkRat` so that it evaluates
inside the kernel (`Rat.mul` is irreducible); proved equal to `*` below. -/
def qmul (a b : ℚ) : ℚ := mkRat (a.num * b.num) (a.den * b.den)

/-- Rational addition through `mkRat`; proved equal to `+` below. -/
def qadd (a b : ℚ) : ℚ :=
  mkRat (a.num * (b.den : Int) + b.num * (a.den : Int)) (a.den * b.den)

theorem qmul_eq (a b : ℚ) : qmul a b = a * b := by
  conv_rhs => rw [← Rat.mkRat_self a, ← Rat.mkRat_self b]
  rw [Rat.mkRat_mul_mkRat, qmul]

theorem qadd_eq (a b : ℚ) : qadd a b = a + b := by
  conv_rhs => rw [← Rat.num_divInt_den a, ← Rat.num_divInt_den b]
  rw [Rat.divInt_add_divInt _ _ (Int.natCast_ne_zero.mpr a.den_nz)
        (Int.natCast_ne_zero.mpr b.den_nz),
      qadd, Rat.mkRat_eq_divInt]
  push_cast
  ring_nf

/-- The weighted score `confidence * 0.7 + (priority / 10) * 0.3`
(agent_router_manager.py:123-126, router_manager.py:139-142). -/
def weightedScore (c : ℚ) (p : Int) : ℚ :=
  qadd (qmul c (mkRat 7 10)) (qmul (Rat.divInt p 10) (mkRat 3 10))

/-- Sanity check: `weightedScore` is the `0.7·confidence + 0.3·(priority/10)`
blend of the source. -/
theorem weightedScore_eq (c : ℚ) (p : Int) :
    weightedScore c p = c * (7 / 10) + ((p : ℚ) / 10) * (3 / 10) := by
  rw [weightedScore, qadd_eq, qmul_eq, qmul_eq, Rat.divInt_eq_div,
      Rat.mkRat_eq_divInt, Rat.mkRat_eq_divInt, Rat.divInt_eq_div, Rat.divInt_eq_div]
  norm_num

/-- The `agent_scores` entry for one agent: on a successful probe the
confidence, priority and weighted score; if `can_handle` raises, the entry
`{"confidence": 0.0, "priority": 0, "final_score": 0.0}`
(agent_router_manager.py:135-137). -/
def agentScoreOf (a : AgentEntry) : ScoreEntry :=
  match a.probe with
  | none => ⟨a.name, 0, 0, 0⟩
  | some c => ⟨a.name, c, a.priority, weightedScore c a.priority⟩

/-- The full `agent_scores` dict, in registration order
(agent_router_manager.py:119-137). -/
def computeAgentScores (agents : List AgentEntry) : List ScoreEntry :=
  agents.map agentScoreOf

/-- Python's `max(..., key=key)` over a non-empty sequence, accumulator
style: the running best is replaced only when a later element is strictly
greater, so the first element attaining the maximum wins. -/
def pickBest {α : Type} (key : α → ℚ) (b : α) : List α → α
  | [] => b
  | x :: xs => pickBest key (if key x > key b then x else b) xs

/-- `AgentRouterManager.select_best_agent` (agent_router_manager.py:114-156):
build the score dict, pick the maximal `final_score` (first wins on ties),
return `(None, best_score)` when the best weighted score is below `0.3`,
else `(best_agent, its confidence)`; `(None, 0.0)` on an empty dict. -/
def selectBestAgent (agents : List AgentEntry) : Option String × ℚ :=
  match computeAgentScores agents with
  | [] => (none, 0)
  | s :: ss =>
    let best := pickBest (fun e => e.finalScore) s ss
    if best.finalScore < mkRat 3 10 then (none, best.finalScore)
    else (some best.name, best.confidence)

/-- `self.agents` dict lookup (first entry with the given name). -/
def findAgent (agents : List AgentEntry) (id : String) : Option AgentEntry :=
  agents.find? (fun a => a.name = id)

/-- The notice appended when the switch limit is hit
(agent_router_manager.py:177). -/
def maxStepNotice : String := "\n\n최대 처리 단계에 도달했습니다."

/-- `AgentRouterManager.process_with_agent` (agent_router_manager.py:158-183),
with `fuel` bounding the Python recursion depth (proved adequate below) and
the list of agent names actually executed returned alongside the result.
Unknown `agent_id` or a raised `process` yields `None`; a `SWITCH` result
with a truthy `next_agent` recurses after bumping `agent_switches` while the
counter is below `max_agent_switches`, and once the limit is hit the notice
is appended to the result's `response` and the result returned as is. -/
def processWithAgent (agents : List AgentEntry) :
    Nat → Nat → String → Option AgentResult × List String
  | 0, _, _ => (none, [])
  | fuel + 1, switches, agentId =>
    match findAgent agents agentId with
    | none => (none, [])
    | some a =>
      match a.proc switches with
      | none => (none, [agentId])
      | some result =>
        if result.action == .switch && truthy result.nextAgent then
          if switches < maxAgentSwitches then
            let r := processWithAgent agents fuel (switches + 1)
              (result.nextAgent.getD "")
            (r.1, agentId :: r.2)
          else
            (some { result with response := result.response ++ maxStepNotice },
             [agentId])
        else (some result, [agentId])

/-- `AgentRouterManager.get_agent_name` (agent_router_manager.py:185-193). -/
def getAgentName (id : String) : String :=
  if id = "document_search" then "문서검색 에이전트"
  else if id = "document_draft" then "업무문서 초안작성 에이전트"
  else if id = "performance_analysis" then "실적분석 에이전트"
  else if id = "client_analysis" then "거래처분석 에이전트"
  else id

/-- `AgentAction.value` (base_agent.py:16-21). -/
def actionValue : AgentAction → String
  | .complete => "complete"
  | .switch => "switch"
  | .continue' => "continue"
  | .error => "error"

/-- The handler-describing fields of the dict returned by
`AgentRouterManager.route_message` on the success path
(agent_router_manager.py:96-105): `agent_id`, `agent_name`, `confidence`,
`response`, `action`, `next_agent`.  (`metadata` and `sources` carry no
handler names and are not modelled.) -/
structure RouteResponse where
  agentId : String
  agentName : String
  confidence : ℚ
  response : String
  action : String
  nextAgent : Option String
deriving DecidableEq, Repr

/-- The outcome of `route_message`: the `{"error": ..., "suggestions": ...}`
dict when no agent was selected (agent_router_manager.py:77-81), or the
success dict. -/
inductive RouteOutcome where
  | err (msg : String)
  | ok (r : RouteResponse)
deriving DecidableEq, Repr

/-- `AgentRouterManager.route_message` (agent_router_manager.py:58-112):
select the best agent (context starts with `agent_switches = 0`); if none,
return the error dict; else run `process_with_agent` and assemble the
result dict, substituting the fixed message / `"error"` action when the
processing returned `None`.  The second component is the list of agent
names actually executed (ghost instrumentation, not returned by the
source). -/
def routeMessage (agents : List AgentEntry) : RouteOutcome × List String :=
  match selectBestAgent agents with
  | (none, _) => (.err "적절한 에이전트를 찾을 수 없습니다.", [])
  | (some id, conf) =>
    let pr := processWithAgent agents (maxAgentSwitches + 1) 0 id
    match pr.1 with
    | none =>
      (.ok ⟨id, getAgentName id, conf, "처리 중 오류가 발생했습니다.", "error", none⟩,
       pr.2)
    | some result =>
      (.ok ⟨id, getAgentName id, conf, result.response, actionValue result.action,
            result.nextAgent⟩,
       pr.2)

/-- `RouterAction` (base_router.py:16-21). -/
inductive RAction where
  | continue'
  | switch
  | complete
  | error
deriving DecidableEq, Repr

/-- The fields of `RouterResult` (base_router.py:23-31) used by the
switching loop: `response`, `action`, `next_router`, `confidence`. -/
structure RouterResult where
  response : String
  action : RAction
  nextRouter : Option String
  confidence : ℚ
deriving DecidableEq, Repr

/-- One registered router of `RouterManager.routers` (name = dict key,
`priority` property, `can_handle` outcome on the current context with
`none` = raises, `process` as a function of `router_switches`). -/
structure RouterEntry where
  name : String
  priority : Int
  probe : Option ℚ
  proc : Nat → RouterResult

/-- One entry of the `router_scores` list of `RouterManager.select_router`
(router_manager.py:116-124). -/
structure RScore where
  name : String
  confidence : ℚ
  priority : Int
deriving DecidableEq, Repr

/-- The `router_scores` list (router_manager.py:116-126): routers are
probed in registration order; a router whose `can_handle` raises is logged
and simply skipped — no entry is appended for it. -/
def routerScores (routers : List RouterEntry) : List RScore :=
  routers.filterMap (fun r => r.probe.map (fun c => ⟨r.name, c, r.priority⟩))

/-- `RouterManager.select_router` (router_manager.py:110-157): if the score
list is non-empty, keep the scores with `confidence >=
router_confidence_threshold`; if any survive, pick the maximal weighted
score (Python `max`: first wins on ties); otherwise fall back to
`general_chat_router` when it is registered.  Returns the selected router's
name, or `none` when `best_router` stays `None`. -/
def selectRouter (routers : List RouterEntry) : Option String :=
  match routerScores routers with
  | [] => none
  | s :: ss =>
    let valid := (s :: ss).filter (fun e => routerConfidenceThreshold ≤ e.confidence)
    match valid with
    | [] =>
      if routers.any (fun r => r.name = "general_chat_router") then
        some "general_chat_router"
      else none
    | v :: vs =>
      some (pickBest (fun e => weightedScore e.confidence e.priority) v vs).name

/-- `self.routers` dict lookup. -/
def findRouter (routers : List RouterEntry) (n : String) : Option RouterEntry :=
  routers.find? (fun r => r.name = n)

/-- The dict `_process_with_router_switching` returns
(router_manager.py:217-283), reduced to the fields the claims are about:
`response`, `router_type`, `confidence`, and whether `metadata` carries one
of the loop's own error markers (`"no_router_found"` /
`"max_switches_exceeded"`); dicts built from a handler's `RouterResult`
carry the handler's metadata, which the loop never extends with an error
marker, modelled as `none`. -/
structure RouteDict where
  response : String
  routerType : String
  confidence : ℚ
  errKey : Option String
deriving DecidableEq, Repr

/-- The dict built from a handler's result in every non-switching branch
(router_manager.py:236-242, 250-256, 259-265, 268-274): the result's
`response`/`confidence` with `router_type` = the current router's name. -/
def dictOf (result : RouterResult) (currentName : String) : RouteDict :=
  ⟨result.response, currentName, result.confidence, none⟩

/-- The `while switch_count < max_switches` body of
`RouterManager._process_with_router_switching` (router_manager.py:213-283),
with `fuel = max_switches - switch_count` (the loop guard fails exactly
when the fuel is exhausted, yielding the `max_switches_exceeded` dict of
lines 277-283).  On `SWITCH` with a truthy `next_router` that is
registered, control moves to that router and the counter is bumped; on
`SWITCH` to an unknown or falsy target, and on `COMPLETE` / `ERROR` /
`CONTINUE`, the current result's dict is returned.  The second component
lists the routers actually executed (ghost instrumentation). -/
def routerLoop (routers : List RouterEntry) :
    Nat → Nat → RouterEntry → RouteDict × List String
  | 0, _, _ =>
    (⟨"라우터 전환이 너무 많이 발생했습니다. 다시 시도해 주세요.", "error", 0,
      some "max_switches_exceeded"⟩, [])
  | fuel + 1, switchCount, cur =>
    let result := cur.proc switchCount
    if result.action == .switch && truthy result.nextRouter then
      match findRouter routers (result.nextRouter.getD "") with
      | some nxt =>
        let r := routerLoop routers fuel (switchCount + 1) nxt
        (r.1, cur.name :: r.2)
      | none => (dictOf result cur.name, [cur.name])
    else (dictOf result cur.name, [cur.name])

/-- `RouterManager._process_with_router_switching` (router_manager.py:207-283):
on first loop entry `current_router` is `None`, so the router is selected;
a failed selection returns the `no_router_found` dict (lines 217-224), else
the switching loop runs from `switch_count = 0`.  (`max_router_switches` is
positive, so modelling the selection before the loop is faithful.) -/
def processWithRouterSwitching (routers : List RouterEntry) :
    RouteDict × List String :=
  match (selectRouter routers).bind (findRouter routers) with
  | none => (⟨"적절한 라우터를 찾을 수 없습니다.", "error", 0, some "no_router_found"⟩, [])
  | some cur => routerLoop routers maxRouterSwitches 0 cur

/-- One entry of `conversation_history[session_id]`
(router_manager.py:184-189): the dict
`{"user": ..., "assistant": ..., "router": ..., "timestamp": ...}`. -/
structure Turn where
  user : String
  assistant : String
  router : String
  timestamp : String
deriving DecidableEq, Repr

/-- The history-cap constant of `RouterManager.process_message`
(router_manager.py:191-193): only the most recent 50 turns are kept. -/
def historyCap : Nat := 50

/-- The history update performed by `RouterManager.process_message`
(router_manager.py:184-193): append the new turn, then, when the list has
grown beyond 50 entries, keep only the last 50 (`[-50:]`). -/
def appendTurn (hist : List Turn) (t : Turn) : List Turn :=
  let h := hist ++ [t]
  if historyCap < h.length then h.drop (h.length - historyCap) else h

/-!
Reference model for the history-aliasing claim.  Python lists are mutable
heap objects; to state what `RouterContext(conversation_history=...)` shares,
the session store is modelled as a heap of list cells addressed by `Ref`.
-/

/-- A heap of conversation-history cells; `Ref r` is cell index `r`. -/
abbrev Heap := List (List Turn)

/-- Read the list object held in cell `r`. -/
def readRef (h : Heap) (r : Nat) : List Turn := h.getD r []

/-- Overwrite the list object held in cell `r` (a Python in-place mutation
of that list). -/
def writeRef (h : Heap) (r : Nat) (v : List Turn) : Heap := h.set r v

/-- `RouterManager.process_message` builds the context with
`conversation_history=self.conversation_history[session_id]`
(router_manager.py:174): the context receives the stored list object
itself — no copy is made — so the context's history cell is the session's
own cell. -/
def contextHistoryRef (sessionRef : Nat) : Nat := sessionRef

/-- A handler mutating in place the history value it received through its
context (e.g. `context.conversation_history.append(...)`), as the update
`f` of the list object behind the context's reference. -/
def handlerMutate (h : Heap) (ctxRef : Nat) (f : List Turn → List Turn) : Heap :=
  writeRef h ctxRef (f (readRef h ctxRef))

/-!
`__post_init__` normalisation of the two result dataclasses.  `sources` and
`metadata` are declared `Optional` (default `None`) and rewritten to `[]` /
`{}` when `None`.
-/

/-- `AgentResult`'s `sources`/`metadata` fields as constructed
(base_agent.py:36-44): `None` is `none`. -/
structure AgentResultFields where
  sources : Option (List String)
  metadata : Option (List (String × String))
deriving DecidableEq, Repr

/-- `AgentResult.__post_init__` (base_agent.py:46-50): replace a `None`
`sources` by `[]` and a `None` `metadata` by `{}`. -/
def agentResultPostInit (r : AgentResultFields) : AgentResultFields :=
  { sources := match r.sources with
      | none => some []
      | some s => some s
    metadata := match r.metadata with
      | none => some []
      | some m => some m }

/-- `RouterResult`'s `sources`/`metadata` fields as constructed
(base_router.py:23-31). -/
structure RouterResultFields where
  sources : Option (List String)
  metadata : Option (List (String × String))
deriving DecidableEq, Repr

/-- `RouterResult.__post_init__` (base_router.py:33-37). -/
def routerResultPostInit (r : RouterResultFields) : RouterResultFields :=
  { sources := match r.sources with
      | none => some []
      | some s => some s
    metadata := match r.metadata with
      | none => some []
      | some m => some m }

/-!
Concrete fixtures used to evaluate the embedding on explicit inputs.
-/

/-- A router `process` that immediately completes with an empty response. -/
def idleProc : Nat → RouterResult := fun _ => ⟨"", .complete, none, 0⟩

/-- An agent `process` that immediately completes. -/
def okProc : Nat → Option AgentResult := fun _ => some ⟨"ok", .complete, none⟩

/-- One agent with the maximal priority 10 whose probe claims confidence
only `0.1` — its weighted score is `0.1·0.7 + 1·0.3 = 0.37`. -/
def lowConfHighPrio : List AgentEntry :=
  [⟨"helper", 10, some (mkRat 1 10), okProc⟩]

/-- Two routers (one of them `general_chat_router`) whose probes both
return confidence `0.1`, below `router_confidence_threshold = 0.5`. -/
def lowConfRouters : List RouterEntry :=
  [⟨"qa_router", 5, some (mkRat 1 10), idleProc⟩,
   ⟨"general_chat_router", 3, some (mkRat 1 10), fun _ => ⟨"hello", .complete, none, mkRat 1 2⟩⟩]

/-- Two agents that forever hand control to each other. -/
def pingPongAgents : List AgentEntry :=
  [⟨"a", 8, some (mkRat 9 10), fun _ => some ⟨"ra", .switch, some "b"⟩⟩,
   ⟨"b", 5, some (mkRat 2 10), fun _ => some ⟨"rb", .switch, some "a"⟩⟩]

/-- A single router that hands control to an unregistered name. -/
def badSwitchRouters : List RouterEntry :=
  [⟨"routerA", 5, some (mkRat 9 10), fun _ => ⟨"ra", .switch, some "ghost", mkRat 9 10⟩⟩]

/-- Routers whose probes all raise; `general_chat_router` is registered. -/
def throwingRouters : List RouterEntry :=
  [⟨"a", 5, none, idleProc⟩, ⟨"general_chat_router", 3, none, idleProc⟩]

/-- Two agents with identical probe output and priority — a weighted-score
tie between registration indices 0 and 1. -/
def tiedAgents : List AgentEntry :=
  [⟨"a", 5, some (mkRat 1 2), okProc⟩, ⟨"b", 5, some (mkRat 1 2), okProc⟩]

/-- A two-hop run: `a` switches to `b`, `b` completes. -/
def hopAgents : List AgentEntry :=
  [⟨"a", 8, some (mkRat 9 10), fun _ => some ⟨"partial", .switch, some "b"⟩⟩,
   ⟨"b", 5, some (mkRat 2 10), fun _ => some ⟨"done", .complete, none⟩⟩]

/-- A concrete conversation turn. -/
def turnA : Turn := ⟨"hi", "hello", "qa_router", "t0"⟩

/-- Another concrete conversation turn. -/
def turnB : Turn := ⟨"bye", "goodbye", "general_chat_router", "t1"⟩

/-!
## Theorems

First the generic specification of `pickBest` (Python's `max`), then the
claims.
-/

/-- Python's `max` keeps the running best and replaces it only on a strict
increase, so the result is either the seed (then no list element beats it)
or a list element that strictly beats the seed and every element before it,
and is not beaten by any element after it. -/
theorem pickBest_spec {α : Type} (key : α → ℚ) (xs : List α) (b : α) :
    (pickBest key b xs = b ∧ ∀ x ∈ xs, key x ≤ key b) ∨
    (∃ l₁ l₂, xs = l₁ ++ pickBest key b xs :: l₂ ∧
      key b < key (pickBest key b xs) ∧
      (∀ x ∈ l₁, key x < key (pickBest key b xs)) ∧
      (∀ x ∈ l₂, key x ≤ key (pickBest key b xs))) := by
  induction xs generalizing b with
  | nil => exact Or.inl ⟨rfl, by simp⟩
  | cons x xs ih =>
    simp only [pickBest]
    by_cases hx : key x > key b
    · rw [if_pos hx]
      have hx' : key b < key x := hx
      rcases ih x with ⟨heq, hle⟩ | ⟨l₁, l₂, hsplit, hgt, hl₁, hl₂⟩
      · refine Or.inr ⟨[], xs, ?_, ?_, by simp, ?_⟩
        · rw [heq]; rfl
        · rw [heq]; exact hx'
        · intro y hy; rw [heq]; exact hle y hy
      · refine Or.inr ⟨x :: l₁, l₂, ?_, ?_, ?_, hl₂⟩
        · conv_lhs => rw [hsplit]
          rw [List.cons_append]
        · exact lt_trans hx' hgt
        · intro y hy
          rcases List.mem_cons.mp hy with heq | hy
          · rw [heq]; exact hgt
          · exact hl₁ y hy
    · rw [if_neg hx]
      rcases ih b with ⟨heq, hle⟩ | ⟨l₁, l₂, hsplit, hgt, hl₁, hl₂⟩
      · refine Or.inl ⟨heq, ?_⟩
        intro y hy
        rcases List.mem_cons.mp hy with heq' | hy
        · rw [heq']; exact le_of_not_lt hx
        · exact hle y hy
      · refine Or.inr ⟨x :: l₁, l₂, ?_, hgt, ?_, hl₂⟩
        · conv_lhs => rw [hsplit]
          rw [List.cons_append]
        · intro y hy
          rcases List.mem_cons.mp hy with heq | hy
          · rw [heq]; exact lt_of_le_of_lt (le_of_not_lt hx) hgt
          · exact hl₁ y hy

/-- Consequence of `pickBest_spec`: the winner splits `b :: xs` into a
strictly-smaller prefix and a no-larger suffix — the "first index attaining
the maximum" characterization of Python's `max`. -/
theorem pickBest_split {α : Type} (key : α → ℚ) (xs : List α) (b : α) :
    ∃ l₁ l₂, b :: xs = l₁ ++ pickBest key b xs :: l₂ ∧
      (∀ x ∈ l₁, key x < key (pickBest key b xs)) ∧
      (∀ x ∈ l₂, key x ≤ key (pickBest key b xs)) := by
  rcases pickBest_spec key xs b with ⟨heq, hle⟩ | ⟨l₁, l₂, hsplit, hgt, hl₁, hl₂⟩
  · exact ⟨[], xs, by simp [heq], by simp, by rw [heq]; exact hle⟩
  · refine ⟨b :: l₁, l₂, ?_, ?_, hl₂⟩
    · conv_lhs => rw [hsplit]
      rw [List.cons_append]
    · intro y hy
      rcases List.mem_cons.mp hy with heq | hy
      · rw [heq]; exact hgt
      · exact hl₁ y hy

/-- The winner is a member of `b :: xs`. -/
theorem pickBest_mem {α : Type} (key : α → ℚ) (xs : List α) (b : α) :
    pickBest key b xs ∈ b :: xs := by
  rcases pickBest_split key xs b with ⟨l₁, l₂, hsplit, -, -⟩
  rw [hsplit]
  exact List.mem_append.mpr (Or.inr (List.mem_cons_self _ _))

/-- The winner's key is maximal over `b :: xs`. -/
theorem pickBest_le {α : Type} (key : α → ℚ) (xs : List α) (b : α) :
    ∀ x ∈ b :: xs, key x ≤ key (pickBest key b xs) := by
  rcases pickBest_split key xs b with ⟨l₁, l₂, hsplit, hl₁, hl₂⟩
  intro x hx
  rw [hsplit] at hx
  rcases List.mem_append.mp hx with hx | hx
  · exact le_of_lt (hl₁ x hx)
  · rcases List.mem_cons.mp hx with rfl | hx
    · exact le_refl _
    · exact hl₂ x hx

/-- Characterization of a successful `select_best_agent`: the returned name
and confidence are those of the `pickBest` winner over the score dict, and
the winner's weighted score clears `0.3`. -/
theorem selectBestAgent_some {agents : List AgentEntry} {n : String} {c : ℚ}
    (h : selectBestAgent agents = (some n, c)) :
    ∃ s ss, computeAgentScores agents = s :: ss ∧
      (pickBest (fun e => e.finalScore) s ss).name = n ∧
      (pickBest (fun e => e.finalScore) s ss).confidence = c ∧
      mkRat 3 10 ≤ (pickBest (fun e => e.finalScore) s ss).finalScore := by
  cases hs : computeAgentScores agents with
  | nil =>
    have hsel : selectBestAgent agents = (none, 0) := by
      unfold selectBestAgent; rw [hs]
    rw [hsel] at h
    simp at h
  | cons s ss =>
    have hsel : selectBestAgent agents
        = (if (pickBest (fun e => e.finalScore) s ss).finalScore < mkRat 3 10
           then (none, (pickBest (fun e => e.finalScore) s ss).finalScore)
           else (some (pickBest (fun e => e.finalScore) s ss).name,
                 (pickBest (fun e => e.finalScore) s ss).confidence)) := by
      unfold selectBestAgent; rw [hs]
    rw [hsel] at h
    by_cases hlt : (pickBest (fun e => e.finalScore) s ss).finalScore < mkRat 3 10
    · rw [if_pos hlt] at h
      simp at h
    · rw [if_neg hlt] at h
      simp only [Prod.mk.injEq, Option.some.injEq] at h
      exact ⟨s, ss, rfl, h.1, h.2, le_of_not_lt hlt⟩

/-- Computation rule for `select_router` once the score list is known. -/
theorem selectRouter_eq {routers : List RouterEntry} {s : RScore} {ss : List RScore}
    (hs : routerScores routers = s :: ss) :
    selectRouter routers =
      (match (s :: ss).filter (fun e => routerConfidenceThreshold ≤ e.confidence) with
       | [] =>
         if routers.any (fun r => r.name = "general_chat_router") then
           some "general_chat_router"
         else none
       | v :: vs =>
         some (pickBest (fun e => weightedScore e.confidence e.priority) v vs).name) := by
  unfold selectRouter
  rw [hs]

/-- **C1** (counterexample).  The claim: a handler is selected only when its
raw probe confidence is at least the threshold `0.3`.  The code gates on
the weighted score instead: a single agent of priority `10` whose probe
returns confidence `0.1` has weighted score `0.1·0.7 + 1·0.3 = 0.37 ≥ 0.3`
and is selected even though `0.1 < 0.3`. -/
theorem C1_counterexample :
    selectBestAgent lowConfHighPrio = (some "helper", mkRat 1 10) ∧
    mkRat 1 10 < mkRat 3 10 := by decide

/-- **C1** (amended): `select_best_agent`'s eligibility gate is on the
*weighted* score — every selected agent's winning score entry has
`final_score ≥ 0.3` and maximal `final_score`, and the returned confidence
is that entry's raw confidence, with no lower bound of its own. -/
theorem C1_weighted_gate (agents : List AgentEntry) (n : String) (c : ℚ)
    (h : selectBestAgent agents = (some n, c)) :
    ∃ e ∈ computeAgentScores agents, e.name = n ∧ e.confidence = c ∧
      mkRat 3 10 ≤ e.finalScore ∧
      ∀ e' ∈ computeAgentScores agents, e'.finalScore ≤ e.finalScore := by
  rcases selectBestAgent_some h with ⟨s, ss, hs, hn, hc, hge⟩
  refine ⟨pickBest (fun e => e.finalScore) s ss, ?_, hn, hc, hge, ?_⟩
  · rw [hs]; exact pickBest_mem _ _ _
  · rw [hs]; exact pickBest_le _ _ _

/-- Witness for `C1_weighted_gate` at the counterexample input. -/
theorem C1_weighted_gate_witness :
    ∃ e ∈ computeAgentScores lowConfHighPrio, e.name = "helper" ∧
      e.confidence = mkRat 1 10 ∧ mkRat 3 10 ≤ e.finalScore ∧
      ∀ e' ∈ computeAgentScores lowConfHighPrio, e'.finalScore ≤ e.finalScore :=
  C1_weighted_gate lowConfHighPrio "helper" (mkRat 1 10) (by decide)

/-- **C2** (counterexample).  The claim: when no handler clears the
threshold, selection surfaces the no-eligible-handler error and never
substitutes a fallback handler.  With both probes at `0.1 < 0.5`,
`select_router` substitutes the registered `general_chat_router`, and the
whole run completes through it with no error marker. -/
theorem C2_counterexample :
    selectRouter lowConfRouters = some "general_chat_router" ∧
    (routerScores lowConfRouters).all
        (fun e => e.confidence < routerConfidenceThreshold) = true ∧
    processWithRouterSwitching lowConfRouters
      = (⟨"hello", "general_chat_router", mkRat 1 2, none⟩, ["general_chat_router"]) := by
  decide

/-- **C2** (amended): `AgentRouterManager.route_message` does surface the
error outcome when selection fails, but `RouterManager.select_router`
falls back to `general_chat_router` whenever it is registered and the
(non-empty) score list has no entry clearing the threshold. -/
theorem C2_no_silent_fallback :
    (∀ (agents : List AgentEntry) (q : ℚ),
      selectBestAgent agents = (none, q) →
      routeMessage agents = (.err "적절한 에이전트를 찾을 수 없습니다.", [])) ∧
    (∀ (routers : List RouterEntry) (s : RScore) (ss : List RScore),
      routerScores routers = s :: ss →
      (∀ e ∈ routerScores routers, e.confidence < routerConfidenceThreshold) →
      routers.any (fun r => r.name = "general_chat_router") = true →
      selectRouter routers = some "general_chat_router") := by
  constructor
  · intro agents q h
    unfold routeMessage
    rw [h]
  · intro routers s ss hs hlow hgen
    rw [selectRouter_eq hs]
    have hfil : (s :: ss).filter (fun e => routerConfidenceThreshold ≤ e.confidence) = [] := by
      rw [List.filter_eq_nil_iff]
      intro e he
      rw [hs] at hlow
      simp only [decide_eq_true_eq]
      exact not_le_of_lt (hlow e he)
    rw [hfil, hgen]
    rfl

/-- Witness for `C2_no_silent_fallback` at concrete inputs. -/
theorem C2_no_silent_fallback_witness :
    routeMessage [] = (.err "적절한 에이전트를 찾을 수 없습니다.", []) ∧
    selectRouter lowConfRouters = some "general_chat_router" :=
  ⟨C2_no_silent_fallback.1 [] 0 (by decide),
   C2_no_silent_fallback.2 lowConfRouters ⟨"qa_router", mkRat 1 10, 5⟩
     [⟨"general_chat_router", mkRat 1 10, 3⟩] (by decide) (by decide) (by decide)⟩

/-- **C7**: the selection step is a pure function of the registered
handlers and their probe outputs, and on a weighted-score tie the handler
with the lowest registration index wins: in both managers the winner splits
the candidate list into a strictly-lower-scored prefix (every earlier
candidate scores strictly less) and a no-higher-scored suffix. -/
theorem C7_registration_order_tie_break :
    (∀ (agents : List AgentEntry) (n : String) (c : ℚ),
      selectBestAgent agents = (some n, c) →
      ∃ l₁ e l₂, computeAgentScores agents = l₁ ++ e :: l₂ ∧ e.name = n ∧
        e.confidence = c ∧
        (∀ x ∈ l₁, x.finalScore < e.finalScore) ∧
        (∀ x ∈ l₂, x.finalScore ≤ e.finalScore)) ∧
    (∀ (routers : List RouterEntry) (s v : RScore) (ss vs : List RScore),
      routerScores routers = s :: ss →
      (s :: ss).filter (fun e => routerConfidenceThreshold ≤ e.confidence) = v :: vs →
      ∃ l₁ e l₂, v :: vs = l₁ ++ e :: l₂ ∧ selectRouter routers = some e.name ∧
        (∀ x ∈ l₁,
          weightedScore x.confidence x.priority < weightedScore e.confidence e.priority) ∧
        (∀ x ∈ l₂,
          weightedScore x.confidence x.priority ≤ weightedScore e.confidence e.priority)) := by
  constructor
  · intro agents n c h
    rcases selectBestAgent_some h with ⟨s, ss, hs, hn, hc, -⟩
    rcases pickBest_split (fun e => e.finalScore) ss s with ⟨l₁, l₂, hsplit, hl₁, hl₂⟩
    exact ⟨l₁, pickBest (fun e => e.finalScore) s ss, l₂, by rw [hs, hsplit],
      hn, hc, hl₁, hl₂⟩
  · intro routers s v ss vs hs hfil
    rcases pickBest_split (fun e => weightedScore e.confidence e.priority) vs v with
      ⟨l₁, l₂, hsplit, hl₁, hl₂⟩
    refine ⟨l₁, pickBest (fun e => weightedScore e.confidence e.priority) v vs, l₂,
      hsplit, ?_, hl₁, hl₂⟩
    rw [selectRouter_eq hs, hfil]

/-- Witness for `C7_registration_order_tie_break`: two agents with equal
weighted scores — the first-registered one wins. -/
theorem C7_registration_order_tie_break_witness :
    selectBestAgent tiedAgents = (some "a", mkRat 1 2) ∧
    ∃ l₁ e l₂, computeAgentScores tiedAgents = l₁ ++ e :: l₂ ∧ e.name = "a" ∧
      e.confidence = mkRat 1 2 ∧
      (∀ x ∈ l₁, x.finalScore < e.finalScore) ∧
      (∀ x ∈ l₂, x.finalScore ≤ e.finalScore) :=
  ⟨by decide,
   C7_registration_order_tie_break.1 tiedAgents "a" (mkRat 1 2) (by decide)⟩

/-- The chain of executed agents is bounded: starting from a switch counter
`switches ≤ maxAgentSwitches`, at most `maxAgentSwitches + 1 - switches`
agents run, whatever the fuel. -/
theorem processWithAgent_chain_bound (agents : List AgentEntry) :
    ∀ (fuel switches : Nat) (id : String), switches ≤ maxAgentSwitches →
      (processWithAgent agents fuel switches id).2.length
        ≤ maxAgentSwitches + 1 - switches := by
  intro fuel
  induction fuel with
  | zero =>
    intro switches id h
    simp only [processWithAgent, List.length_nil]
    omega
  | succ fuel ih =>
    intro switches id h
    simp only [processWithAgent]
    split
    · simp only [List.length_nil]; omega
    · split
      · simp only [List.length_cons, List.length_nil]; omega
      · split
        · split
          · rename_i result heqres hcond hlt
            have hrec := ih (switches + 1) (result.nextAgent.getD "") (by omega)
            simp only [List.length_cons]
            omega
          · simp only [List.length_cons, List.length_nil]; omega
        · simp only [List.length_cons, List.length_nil]; omega

/-- `process_with_agent` is insensitive to the fuel bound once the fuel
covers the remaining switch budget: the Python recursion always terminates
within depth `maxAgentSwitches + 1 - switches`. -/
theorem processWithAgent_fuel_stable (agents : List AgentEntry) :
    ∀ (fuel fuel' switches : Nat) (id : String),
      switches ≤ maxAgentSwitches →
      maxAgentSwitches + 1 - switches ≤ fuel →
      maxAgentSwitches + 1 - switches ≤ fuel' →
      processWithAgent agents fuel switches id
        = processWithAgent agents fuel' switches id := by
  intro fuel
  induction fuel with
  | zero =>
    intro fuel' switches id hs hf hf'
    omega
  | succ fuel ih =>
    intro fuel' switches id hs hf hf'
    cases fuel' with
    | zero => omega
    | succ fuel'' =>
      simp only [processWithAgent]
      cases hfind : findAgent agents id with
      | none => simp only [hfind]
      | some a =>
        cases hproc : a.proc switches with
        | none => simp only [hfind, hproc]
        | some result =>
          simp only [hfind, hproc]
          by_cases hcond : (result.action == .switch && truthy result.nextAgent) = true
          · rw [if_pos hcond, if_pos hcond]
            by_cases hlt : switches < maxAgentSwitches
            · rw [if_pos hlt, if_pos hlt]
              have hrec := ih fuel'' (switches + 1) (result.nextAgent.getD "")
                (by omega) (by omega) (by omega)
              simp only [hrec]
            · rw [if_neg hlt, if_neg hlt]
          · rw [if_neg hcond, if_neg hcond]

/-- **C3** (counterexample).  The claim: exceeding the switch budget ends
the run with a `MaxSwitchesExceeded` *error*.  Two agents that forever
switch to each other execute exactly `maxAgentSwitches + 1 = 4` times, and
the run ends with the last handler's response plus the appended notice —
but the surfaced action is still `"switch"`, not an error outcome. -/
theorem C3_counterexample :
    routeMessage pingPongAgents
      = (.ok ⟨"a", "a", mkRat 9 10, "rb" ++ maxStepNotice, "switch", some "a"⟩,
         ["a", "b", "a", "b"]) ∧
    "switch" ≠ "error" := by decide

/-- **C3** (amended): the chain is bounded by `maxSwitches + 1` executions
and the recursion always terminates (its value is fuel-independent past the
budget), and when the budget is exhausted with a pending switch the last
handler's response is returned with the notice appended — but with its
`SWITCH` action intact, not as a `MaxSwitchesExceeded` error. -/
theorem C3_bounded_chain (agents : List AgentEntry) (id tid : String)
    (t : String) (fuel : Nat) (a : AgentEntry) (result : AgentResult)
    (hf : maxAgentSwitches + 1 ≤ fuel)
    (ha : findAgent agents tid = some a)
    (hr : a.proc maxAgentSwitches = some result)
    (hact : result.action = .switch)
    (htgt : result.nextAgent = some t) (ht : t ≠ "") :
    (processWithAgent agents fuel 0 id).2.length ≤ maxAgentSwitches + 1 ∧
    processWithAgent agents fuel 0 id
      = processWithAgent agents (maxAgentSwitches + 1) 0 id ∧
    processWithAgent agents fuel maxAgentSwitches tid
      = (some { result with response := result.response ++ maxStepNotice },
         [tid]) := by
  refine ⟨?_, ?_, ?_⟩
  · have := processWithAgent_chain_bound agents fuel 0 id (by omega)
    omega
  · exact processWithAgent_fuel_stable agents fuel (maxAgentSwitches + 1) 0 id
      (by omega) (by omega) (by omega)
  · cases fuel with
    | zero => omega
    | succ fuel' =>
      simp only [processWithAgent]
      have hcond : (result.action == .switch && truthy result.nextAgent) = true := by
        rw [hact, htgt]
        simp [truthy, ht]
      simp only [ha, hr]
      rw [if_pos hcond, if_neg (lt_irrefl maxAgentSwitches)]

/-- Witness for `C3_bounded_chain` on the ping-pong fixture. -/
theorem C3_bounded_chain_witness :
    (processWithAgent pingPongAgents 4 0 "a").2.length ≤ maxAgentSwitches + 1 ∧
    processWithAgent pingPongAgents 4 0 "a"
      = processWithAgent pingPongAgents (maxAgentSwitches + 1) 0 "a" ∧
    processWithAgent pingPongAgents 4 maxAgentSwitches "b"
      = (some ⟨"rb" ++ maxStepNotice, .switch, some "a"⟩, ["b"]) :=
  C3_bounded_chain pingPongAgents "a" "b" "a" 4
    ⟨"b", 5, some (mkRat 2 10), fun _ => some ⟨"rb", .switch, some "a"⟩⟩
    ⟨"rb", .switch, some "a"⟩ (by decide) rfl rfl rfl rfl (by decide)

/-- **C4** (counterexample).  The claim: a `Switch` naming an unregistered
target terminates the run with an `UnknownHandler` error.  A single router
that switches to the unregistered name `"ghost"` makes the loop return the
issuing router's own result as the final outcome — `router_type` is the
issuing router, not `"error"`, and no error marker is attached. -/
theorem C4_counterexample :
    processWithRouterSwitching badSwitchRouters
      = (⟨"ra", "routerA", mkRat 9 10, none⟩, ["routerA"]) ∧
    (findRouter badSwitchRouters "ghost").isNone = true ∧
    (⟨"ra", "routerA", mkRat 9 10, none⟩ : RouteDict).errKey = none := by
  refine ⟨by decide, rfl, rfl⟩

/-- **C4** (amended): on a `Switch` whose (truthy) target is not a
registered name, the loop returns the issuing handler's result unchanged —
`router_type` is the issuing handler, the `response`/`confidence` are the
handler's own, no error marker is produced, and the executed chain ends at
the issuing handler. -/
theorem C4_unknown_target (routers : List RouterEntry) (cur : RouterEntry)
    (fuel sc : Nat) (t : String)
    (hact : (cur.proc sc).action = .switch)
    (htgt : (cur.proc sc).nextRouter = some t)
    (ht : t ≠ "") (hfind : findRouter routers t = none) :
    routerLoop routers (fuel + 1) sc cur
      = (dictOf (cur.proc sc) cur.name, [cur.name]) ∧
    (dictOf (cur.proc sc) cur.name).errKey = none ∧
    (dictOf (cur.proc sc) cur.name).routerType = cur.name := by
  refine ⟨?_, rfl, rfl⟩
  simp only [routerLoop]
  have hcond : ((cur.proc sc).action == .switch && truthy (cur.proc sc).nextRouter)
      = true := by
    rw [hact, htgt]
    simp [truthy, ht]
  rw [if_pos hcond]
  rw [htgt]
  simp only [Option.getD_some, hfind]

/-- Witness for `C4_unknown_target` on the bad-switch fixture. -/
theorem C4_unknown_target_witness :
    routerLoop badSwitchRouters 5 0
        ⟨"routerA", 5, some (mkRat 9 10), fun _ => ⟨"ra", .switch, some "ghost", mkRat 9 10⟩⟩
      = (dictOf ⟨"ra", .switch, some "ghost", mkRat 9 10⟩ "routerA", ["routerA"]) ∧
    (dictOf ⟨"ra", .switch, some "ghost", mkRat 9 10⟩ "routerA").errKey = none ∧
    (dictOf ⟨"ra", .switch, some "ghost", mkRat 9 10⟩ "routerA").routerType = "routerA" :=
  C4_unknown_target badSwitchRouters
    ⟨"routerA", 5, some (mkRat 9 10), fun _ => ⟨"ra", .switch, some "ghost", mkRat 9 10⟩⟩
    4 0 "ghost" rfl rfl (by decide) rfl

/-- **C5** (counterexample).  The claim: a handler whose probe raises has
its score *recorded as 0.0*.  In `RouterManager.select_router` a raising
router is skipped instead: the score list gets no entry at all for it, and
when every probe raises the list is empty and selection returns no router —
without even the general-chat fallback. -/
theorem C5_counterexample :
    routerScores throwingRouters = [] ∧
    (routerScores throwingRouters).all (fun e => !(e.name == "a")) = true ∧
    selectRouter throwingRouters = none := by
  refine ⟨rfl, by decide, rfl⟩

/-- **C5** (amended): in `select_best_agent` a raising probe is recorded as
the zero entry `{confidence 0, priority 0, final_score 0}` and every other
agent's entry is computed exactly as it would be on its own; in
`select_router` a raising probe contributes *no* entry, the other routers'
entries again being unaffected.  Neither manager aborts the selection. -/
theorem C5_probe_fault_isolated (pre post : List AgentEntry) (n : String)
    (p : Int) (procA : Nat → Option AgentResult)
    (preR postR : List RouterEntry) (nR : String) (pR : Int)
    (procR : Nat → RouterResult) :
    computeAgentScores (pre ++ ⟨n, p, none, procA⟩ :: post)
      = computeAgentScores pre ++ (⟨n, 0, 0, 0⟩ : ScoreEntry) :: computeAgentScores post ∧
    routerScores (preR ++ ⟨nR, pR, none, procR⟩ :: postR)
      = routerScores preR ++ routerScores postR := by
  constructor
  · simp [computeAgentScores, agentScoreOf]
  · simp [routerScores]

/-- **C6**: the history update of `process_message` keeps the stored
history at ≤ 50 turns; below the cap the turn is appended, at the cap
exactly the oldest turn is evicted (`tail`) and the surviving turns keep
their relative order. -/
theorem C6_history_cap (hist : List Turn) (t : Turn)
    (h : hist.length ≤ historyCap) :
    (appendTurn hist t).length ≤ historyCap ∧
    appendTurn hist t
      = if hist.length < historyCap then hist ++ [t] else hist.tail ++ [t] := by
  simp only [appendTurn]
  by_cases hlt : hist.length < historyCap
  · have hno : ¬ historyCap < (hist ++ [t]).length := by
      simp only [List.length_append, List.length_cons, List.length_nil]
      omega
    rw [if_neg hno, if_pos hlt]
    refine ⟨?_, rfl⟩
    simp only [List.length_append, List.length_cons, List.length_nil]
    omega
  · have he : hist.length = historyCap := le_antisymm h (not_lt.mp hlt)
    have hgt : historyCap < (hist ++ [t]).length := by
      simp only [List.length_append, List.length_cons, List.length_nil]
      omega
    rw [if_pos hgt, if_neg hlt]
    have hdrop : (hist ++ [t]).length - historyCap = 1 := by
      simp only [List.length_append, List.length_cons, List.length_nil]
      omega
    rw [hdrop]
    constructor
    · simp only [List.length_drop, List.length_append, List.length_cons,
        List.length_nil]
      omega
    · cases hist with
      | nil => simp [historyCap] at he
      | cons x xs => simp

/-- Witness for `C6_history_cap` at a full 50-turn history. -/
theorem C6_history_cap_witness :
    (appendTurn (List.replicate historyCap turnA) turnB).length ≤ historyCap ∧
    appendTurn (List.replicate historyCap turnA) turnB
      = if (List.replicate historyCap turnA).length < historyCap then
          List.replicate historyCap turnA ++ [turnB]
        else (List.replicate historyCap turnA).tail ++ [turnB] :=
  C6_history_cap (List.replicate historyCap turnA) turnB (by simp)

/-- **C8** (counterexample).  The claim: a handler mutating the history
value it received cannot change the stored history.  The context is built
with the stored list object itself (router_manager.py:174), so a handler
appending through it does change the store: from `[turnA]` to
`[turnA, turnB]`. -/
theorem C8_counterexample :
    readRef (handlerMutate [[turnA]] (contextHistoryRef 0) (fun h => h ++ [turnB])) 0
      = [turnA, turnB] ∧
    [turnA, turnB] ≠ [turnA] := by decide

/-- **C8** (amended): the context's history reference *is* the session's
stored cell (no copy is made), so any in-place update a handler performs on
the received value is visible in the store. -/
theorem C8_live_reference (heap : Heap) (r : Nat) (f : List Turn → List Turn)
    (hr : r < heap.length) :
    contextHistoryRef r = r ∧
    readRef (handlerMutate heap (contextHistoryRef r) f) r
      = f (readRef heap r) := by
  refine ⟨rfl, ?_⟩
  simp only [handlerMutate, contextHistoryRef, readRef, writeRef,
    List.getD_eq_getElem?_getD]
  rw [List.getElem?_set_eq_of_lt _ hr]
  rfl

/-- Witness for `C8_live_reference` on a one-cell heap. -/
theorem C8_live_reference_witness :
    contextHistoryRef 0 = 0 ∧
    readRef (handlerMutate [[turnA]] (contextHistoryRef 0) (fun h => h ++ [turnB])) 0
      = [turnA] ++ [turnB] :=
  C8_live_reference [[turnA]] 0 (fun h => h ++ [turnB]) (by decide)

/-- Whatever happens, the chain of executed agents is either empty or
starts with the agent the call was rooted at. -/
theorem processWithAgent_chain_first (agents : List AgentEntry)
    (fuel switches : Nat) (id : String) :
    (processWithAgent agents fuel switches id).2 = [] ∨
    ∃ rest, (processWithAgent agents fuel switches id).2 = id :: rest := by
  cases fuel with
  | zero => exact Or.inl rfl
  | succ fuel =>
    simp only [processWithAgent]
    split
    · exact Or.inl rfl
    · split
      · exact Or.inr ⟨[], rfl⟩
      · split
        · split
          · exact Or.inr ⟨_, rfl⟩
          · exact Or.inr ⟨[], rfl⟩
        · exact Or.inr ⟨[], rfl⟩

/-- **C9** (counterexample).  The claim: the returned result carries the
full ordered chain of executed handlers.  In the two-hop run `a → b` the
executed chain is `["a", "b"]`, but the returned dict identifies only the
initially selected agent (`agent_id = "a"`); no field carries the chain. -/
theorem C9_counterexample :
    routeMessage hopAgents
      = (.ok ⟨"a", "a", mkRat 9 10, "done", "complete", none⟩, ["a", "b"]) ∧
    ["a"] ≠ ["a", "b"] := by decide

/-- **C9** (amended): the result returned by `route_message` names only the
*initially selected* agent — its `agent_id` equals the agent selection
picked, whatever chain of switches followed (the executed chain, returned
here as ghost instrumentation, merely starts with that agent). -/
theorem C9_result_names_first_handler (agents : List AgentEntry)
    (id : String) (c : ℚ) (h : selectBestAgent agents = (some id, c)) :
    (∃ r, (routeMessage agents).1 = .ok r ∧ r.agentId = id) ∧
    ((routeMessage agents).2 = [] ∨
      ∃ rest, (routeMessage agents).2 = id :: rest) := by
  have hchain := processWithAgent_chain_first agents (maxAgentSwitches + 1) 0 id
  unfold routeMessage
  simp only [h]
  constructor
  · split
    · exact ⟨_, rfl, rfl⟩
    · exact ⟨_, rfl, rfl⟩
  · split
    · exact hchain
    · exact hchain

/-- Witness for `C9_result_names_first_handler` on the two-hop fixture. -/
theorem C9_result_names_first_handler_witness :
    (∃ r, (routeMessage hopAgents).1 = .ok r ∧ r.agentId = "a") ∧
    ((routeMessage hopAgents).2 = [] ∨
      ∃ rest, (routeMessage hopAgents).2 = "a" :: rest) :=
  C9_result_names_first_handler hopAgents "a" (mkRat 9 10) (by decide)

/-- **C10**: both `__post_init__` normalisations replace a `None`
`sources`/`metadata` by the empty list / empty mapping and keep any
provided value, so the normalised fields are never `None`. -/
theorem C10_post_init_defaults (r : AgentResultFields) (r' : RouterResultFields) :
    (agentResultPostInit r).sources = some (r.sources.getD []) ∧
    (agentResultPostInit r).metadata = some (r.metadata.getD []) ∧
    (agentResultPostInit r).sources ≠ none ∧
    (agentResultPostInit r).metadata ≠ none ∧
    (routerResultPostInit r').sources = some (r'.sources.getD []) ∧
    (routerResultPostInit r').metadata = some (r'.metadata.getD []) ∧
    (routerResultPostInit r').sources ≠ none ∧
    (routerResultPostInit r').metadata ≠ none := by
  obtain ⟨s, m⟩ := r
  obtain ⟨s', m'⟩ := r'
  cases s <;> cases m <;> cases s' <;> cases m' <;>
    simp [agentResultPostInit, routerResultPostInit]

end NaruTalk
